import Mathlib

/-
Verification of the SQLite-file query engine (Rust sources under src/).
Shallow embedding: bytes are Nat (< 256), byte buffers are List Nat,
machine integers are Nat with explicit reductions modulo 2 ^ 64 where the
source can overflow, Rust panics and propagated errors both become
Option.none, and Rust String values are modelled by their UTF-8 byte
lists (Rust String equality and ordering are byte-wise, so nothing is
lost; the panic on invalid UTF-8 in TypeCode::decode for Text is the one
failure this byte-level model does not raise).
-/

/-! ## Varint codec (src/utils.rs, decode_varint) -/

/-- One accumulator step of the varint loop:
result << 7 | (byte & 0x7f), on Nat. -/
def varint_step (a b : Nat) : Nat := a * 128 + b % 128

/-- The loop of decode_varint (src/utils.rs lines 4-14).
Arguments: remaining bytes, the i64 accumulator (already reduced mod
2 ^ 64), the enumeration index i, and bytes_read so far.  On the 9th
byte (i = 8) the code shifts by 8 and takes all 8 bits, then breaks;
otherwise it shifts by 7, takes the low 7 bits, and breaks when the high
bit of the byte is clear.  Exhausting the slice ends the loop with the
partial accumulator. -/
def decode_varint_loop : List Nat → Nat → Nat → Nat → Nat × Nat
  | [], result, _, bytes_read => (result, bytes_read)
  | byte :: rest, result, i, bytes_read =>
    if i == 8 then
      ((result * 256 + byte % 256) % 2 ^ 64, bytes_read + 1)
    else
      let r := (varint_step result byte) % 2 ^ 64
      if byte < 128 then (r, bytes_read + 1)
      else decode_varint_loop rest r (i + 1) (bytes_read + 1)

/-- decode_varint (src/utils.rs lines 1-16): returns (value, bytes_read).
Total, exactly as the source: an exhausted slice yields the partial
accumulator, and the empty slice yields (0, 0). -/
def decode_varint (data : List Nat) : Nat × Nat :=
  decode_varint_loop data 0 0 0

/-! ## Serial-type codec (src/src/typecodes.rs) -/

/-- TypeCode (src/src/typecodes.rs lines 3-17). -/
inductive TypeCode where
  | Null
  | I8
  | I16
  | I24
  | I32
  | I48
  | I64
  | F64
  | Zero
  | One
  | Blob (size : Nat)
  | Text (size : Nat)
deriving DecidableEq

/-- TypeCode::size (src/src/typecodes.rs lines 20-35).  Note the source
gives Zero and One size 4, not 0. -/
def TypeCode.size : TypeCode → Nat
  | .Null => 0
  | .I8 => 1
  | .I16 => 2
  | .I24 => 3
  | .I32 => 4
  | .I48 => 6
  | .I64 => 8
  | .F64 => 8
  | .Zero => 4
  | .One => 4
  | .Blob size => size
  | .Text size => size

/-- SqlValue (src/src/typecodes.rs lines 93-107).  Signed integers are
Int; F64 carries the raw big-endian bit pattern (no float arithmetic is
performed anywhere in the claims); Blob and Text carry byte lists. -/
inductive SqlValue where
  | Null
  | I8 (v : Int)
  | I16 (v : Int)
  | I24 (v : Int)
  | I32 (v : Int)
  | I48 (v : Int)
  | I64 (v : Int)
  | F64 (bits : Nat)
  | Zero
  | One
  | Blob (bytes : List Nat)
  | Text (bytes : List Nat)
deriving DecidableEq

/-- Two's-complement reading of a w-bit big-endian value v. -/
def to_signed (w v : Nat) : Int :=
  if v < 2 ^ (w - 1) then (v : Int) else (v : Int) - 2 ^ w

/-- Big-endian value of the n bytes of data starting at off; none when
any of them is out of bounds (a Rust index panic). -/
def be_bytes_at (data : List Nat) (off : Nat) : Nat → Option Nat
  | 0 => some 0
  | n + 1 => do
    let hi ← be_bytes_at data off n
    let b ← data.get? (off + n)
    some (hi * 256 + b % 256)

/-- TypeCode::decode (src/src/typecodes.rs lines 37-90) on the byte
slice of length size() that the record reader passes it.  Out-of-bounds
byte accesses (Rust index panics) are none.  Note from the source:
I24 is built as i32::from_be_bytes([0, d0, d1, d2]) and I48 as
i64::from_be_bytes([0,0,0,0, d0, d1, d2, d3]) - both zero-extended, and
I48 reads only the first four of its six body bytes. -/
def TypeCode.decode (t : TypeCode) (data : List Nat) : Option SqlValue :=
  match t with
  | .Null => some .Null
  | .I8 => do
    let b0 ← data.get? 0
    some (.I8 (to_signed 8 (b0 % 256)))
  | .I16 => do
    let b0 ← data.get? 0
    let b1 ← data.get? 1
    some (.I16 (to_signed 16 ((b0 % 256) * 256 + b1 % 256)))
  | .I24 => do
    let b0 ← data.get? 0
    let b1 ← data.get? 1
    let b2 ← data.get? 2
    some (.I24 (Int.ofNat (((b0 % 256) * 256 + b1 % 256) * 256 + b2 % 256)))
  | .I32 => do
    let b0 ← data.get? 0
    let b1 ← data.get? 1
    let b2 ← data.get? 2
    let b3 ← data.get? 3
    some (.I32 (to_signed 32 ((((b0 % 256) * 256 + b1 % 256) * 256 + b2 % 256) * 256 + b3 % 256)))
  | .I48 => do
    let b0 ← data.get? 0
    let b1 ← data.get? 1
    let b2 ← data.get? 2
    let b3 ← data.get? 3
    some (.I48 (Int.ofNat ((((b0 % 256) * 256 + b1 % 256) * 256 + b2 % 256) * 256 + b3 % 256)))
  | .I64 => do
    let v ← be_bytes_at data 0 8
    some (.I64 (to_signed 64 v))
  | .F64 => do
    let v ← be_bytes_at data 0 8
    some (.F64 v)
  | .Zero => do
    let _ ← be_bytes_at data 0 4
    some .Zero
  | .One => do
    let _ ← be_bytes_at data 0 4
    some .One
  | .Blob size =>
    if data.length < size then none else some (.Blob (data.take size))
  | .Text size =>
    if data.length < size then none else some (.Text (data.take size))

/-- The match arm of decode_serial_types (src/src/typecodes.rs lines
115-157) mapping one decoded serial-type code to its TypeCode.  The
source handles 0,1,2,3,4 then 6,7,8,9,10, even codes from 12 and odd
codes from 13; codes 5 and 11 fall to the panicking arm. -/
def typecode_of_code (n : Nat) : Option TypeCode :=
  if n == 0 then some .Null
  else if n == 1 then some .I8
  else if n == 2 then some .I16
  else if n == 3 then some .I24
  else if n == 4 then some .I32
  else if n == 6 then some .I48
  else if n == 7 then some .I64
  else if n == 8 then some .F64
  else if n == 9 then some .Zero
  else if n == 10 then some .One
  else if 12 ≤ n && n % 2 == 0 then some (.Blob ((n - 12) / 2))
  else if 13 ≤ n && n % 2 == 1 then some (.Text ((n - 13) / 2))
  else none

/-- The while loop of decode_serial_types, driven by a fuel counter so
the definition stays kernel-computable.  Each iteration consumes the
varint at the cursor, which is at least one byte on a non-empty suffix,
so fuel equal to the byte count is always enough; the fuel-exhausted
branch on a non-empty suffix is unreachable. -/
def decode_serial_types_go : Nat → List Nat → Option (List TypeCode) :=
  Nat.rec
    (fun l => match l with | [] => some [] | _ :: _ => none)
    (fun _ go l =>
      match l with
      | [] => some []
      | b :: rest =>
        let p := decode_varint (b :: rest)
        match typecode_of_code p.1 with
        | none => none
        | some tc => (go (rest.drop (p.2 - 1))).map (tc :: ·))

/-- decode_serial_types (src/src/typecodes.rs lines 109-160): reads
successive serial-type varints from the header bytes; none models the
panic on an unknown code (5 or 11). -/
def decode_serial_types (data : List Nat) : Option (List TypeCode) :=
  decode_serial_types_go data.length data

/-! ## Page loader (src/src/page_io.rs lines 8-117) -/

/-- DbHeader (src/src/page_io.rs lines 8-10): only the page size is
used by the core. -/
structure DbHeader where
  page_size : Nat
deriving DecidableEq

/-- PageHeader (src/src/page_io.rs lines 33-41). -/
structure PageHeader where
  page_type : Nat
  first_freeblock : Nat
  num_cells : Nat
  cell_content_start : Nat
  num_fragments : Nat
  rightmost_pointer : Option Nat
deriving DecidableEq

/-- Page (src/src/page_io.rs lines 25-31). -/
structure Page where
  offset : Nat
  header : PageHeader
  pointer_array : List Nat
  data : List Nat
deriving DecidableEq

/-- u64 subtraction with the wrap-around of the source's u64
arithmetic (page offsets are u64 in Rust). -/
def u64_sub (a b : Nat) : Nat := (a + 2 ^ 64 - b % 2 ^ 64) % 2 ^ 64

/-- u64 multiplication mod 2 ^ 64. -/
def u64_mul (a b : Nat) : Nat := (a * b) % 2 ^ 64

/-- Big-endian u16 read at off: data[off], data[off+1];
none on an out-of-bounds index (Rust panic). -/
def read_u16_at (data : List Nat) (off : Nat) : Option Nat := do
  let a ← data.get? off
  let b ← data.get? (off + 1)
  some ((a % 256) * 256 + b % 256)

/-- Big-endian u32 read at off (the slice data[off..off+4] of the
source); none on an out-of-bounds index. -/
def read_u32_at (data : List Nat) (off : Nat) : Option Nat :=
  be_bytes_at data off 4

/-- PageHeader::is_interior (src/src/page_io.rs lines 114-116). -/
def PageHeader.is_interior (h : PageHeader) : Bool :=
  h.page_type == 2 || h.page_type == 5

/-- PageHeader::from_data (src/src/page_io.rs lines 81-105), applied to
the 12-byte slice the caller cuts out.  Returns the header and its
length: 8, plus 4 when the page type is interior (0x02 or 0x05) and the
rightmost pointer is present. -/
def PageHeader.from_data (d : List Nat) : Option (PageHeader × Nat) :=
  let page_type := d.getD 0 0
  let first_freeblock := (d.getD 1 0) * 256 + d.getD 2 0
  let num_cells := (d.getD 3 0) * 256 + d.getD 4 0
  let cell_content_start := (d.getD 5 0) * 256 + d.getD 6 0
  let num_fragments := d.getD 7 0
  let reserved_region :=
    if page_type == 2 || page_type == 5 then
      some ((((d.getD 8 0) * 256 + d.getD 9 0) * 256 + d.getD 10 0) * 256 + d.getD 11 0)
    else none
  some (⟨page_type, first_freeblock, num_cells, cell_content_start,
         num_fragments, reserved_region⟩,
        8 + match reserved_region with | some _ => 4 | none => 0)

/-- Page::from_file (src/src/page_io.rs lines 43-63): read exactly
page_size bytes at (page_offset - 1) * page_size (u64 arithmetic), parse
the page header at byte 100 on page 1 and byte 0 elsewhere, then build
the cell-pointer array from num_cells big-endian u16s after the header.
read_exact failing (file shorter than a full page) and every slice or
index panic are none. -/
def Page.from_file (file : List Nat) (page_offset : Nat) (dbheader : DbHeader) : Option Page := do
  let start := u64_mul (u64_sub page_offset 1) dbheader.page_size
  if (file.drop start).length < dbheader.page_size then none else
  let data := (file.drop start).take dbheader.page_size
  let dbheader_offset := if page_offset == 1 then 100 else 0
  if data.length < dbheader_offset + 12 then none else
  let pair ← PageHeader.from_data ((data.drop dbheader_offset).take 12)
  let pointer_array ← (List.range pair.1.num_cells).mapM
    (fun i => read_u16_at data (dbheader_offset + pair.2 + 2 * i))
  some ⟨page_offset, pair.1, pointer_array, data⟩

/-- OverflowPage (src/src/page_io.rs lines 66-78).  The source
allocates a page_size buffer of zeros and then calls read_to_end, which
APPENDS the file bytes after the zeros instead of overwriting them, so
the first page_size bytes of data are always zero. -/
structure OverflowPage where
  data : List Nat
deriving DecidableEq

/-- OverflowPage::from_file (src/src/page_io.rs lines 71-77): the
zero-initialized buffer followed by the appended file suffix from the
seek target to end of file (read_to_end returns nothing when the seek
target is at or past end of file). -/
def OverflowPage.from_file (file : List Nat) (page_offset : Nat) (dbheader : DbHeader) : OverflowPage :=
  ⟨List.replicate dbheader.page_size 0 ++
    file.drop (u64_mul (u64_sub page_offset 1) dbheader.page_size)⟩

/-- read_overflow (src/src/page_io.rs lines 436-446): loads the
overflow page and returns its bytes 4 .. 4 + num_overflow_bytes; the
slice panic when the buffer is too short is none. -/
def read_overflow (file : List Nat) (dbheader : DbHeader) (page_number num_overflow_bytes : Nat) : Option (List Nat) :=
  let page := OverflowPage.from_file file page_number dbheader
  if 4 + num_overflow_bytes ≤ page.data.length then
    some ((page.data.drop 4).take num_overflow_bytes)
  else none

/-! ## Record reader (src/src/page_io.rs lines 234-434) -/

/-- RecordStart (src/src/page_io.rs lines 234-239). -/
inductive RecordStart where
  | None
  | RowId (v : Nat)
  | LeftPage (v : Nat)
deriving DecidableEq

/-- Record (src/src/page_io.rs lines 241-246). -/
structure Record where
  record_start : RecordStart
  payload_size : Nat
  values : List SqlValue
deriving DecidableEq

/-- Record::rowid (src/src/page_io.rs lines 249-254). -/
def Record.rowid (r : Record) : Option Nat :=
  match r.record_start with
  | .RowId v => some v
  | _ => none

/-- Record::left_page (src/src/page_io.rs lines 256-261). -/
def Record.left_page (r : Record) : Option Nat :=
  match r.record_start with
  | .LeftPage v => some v
  | _ => none

/-- The column-decoding loop at the end of read_record (src/src/page_io.rs
lines 417-422): for each serial type take the next size() bytes of the
payload (a slice panic when the payload is too short is none) and decode
them. -/
def decode_values (payload : List Nat) : Nat → List TypeCode → Option (List SqlValue)
  | _, [] => some []
  | offset, t :: ts => do
    if payload.length < offset + t.size then none else
    let v ← t.decode ((payload.drop offset).take t.size)
    let rest ← decode_values payload (offset + t.size) ts
    some (v :: rest)

/-- read_record (src/src/page_io.rs lines 363-434).  record_start_kind:
0 index-leaf (payload_size only), 1 table-leaf (payload_size then
rowid), 2 index-interior (4-byte left child then payload_size).

The overflow handling is the source's, verbatim: it computes
overflow = page.data.len() - payload_start - payload_size as a usize -
in a debug build this subtraction panics when the payload spills past
the page end, and in a release build it wraps to a huge count that makes
the subsequent slicing panic, so the model returns none in that case; it
then unconditionally reads the last 4 bytes of
data[.. cell_offset + payload_size] as the overflow page number, and
fetches `overflow` bytes of overflow data exactly when overflow > 0,
which is the case in which the payload actually fits with room to
spare.  The assembled payload is the page tail from payload_start (not
just payload_size bytes) plus the fetched overflow bytes. -/
def read_record (file : List Nat) (dbheader : DbHeader) (page : Page)
    (cell_index record_start_kind : Nat) : Option Record := do
  let cell_offset ← page.pointer_array.get? cell_index
  let parts ←
    if record_start_kind == 0 then
      if page.data.length < cell_offset then none else
      let p := decode_varint (page.data.drop cell_offset)
      some ((none : Option Nat), (none : Option Nat), p.1, cell_offset + p.2)
    else if record_start_kind == 1 then
      if page.data.length < cell_offset then none else
      let p := decode_varint (page.data.drop cell_offset)
      if page.data.length < cell_offset + p.2 then none else
      let q := decode_varint (page.data.drop (cell_offset + p.2))
      some ((none : Option Nat), some q.1, p.1, cell_offset + p.2 + q.2)
    else if record_start_kind == 2 then do
      let lp ← read_u32_at page.data cell_offset
      if page.data.length < cell_offset + 4 then none else
      let p := decode_varint (page.data.drop (cell_offset + 4))
      some (some lp, (none : Option Nat), p.1, cell_offset + p.2 + 4)
    else none
  let left_page := parts.1
  let rowid := parts.2.1
  let payload_size := parts.2.2.1
  let payload_start := parts.2.2.2
  if page.data.length < payload_start + payload_size then none else
  let overflow := page.data.length - payload_start - payload_size
  if cell_offset + payload_size < 4 then none else
  let overflow_page ← read_u32_at page.data (cell_offset + payload_size - 4)
  let overflow_data ←
    if overflow > 0 then read_overflow file dbheader overflow_page overflow
    else some []
  let payload := page.data.drop payload_start ++ overflow_data
  let hd := decode_varint payload
  if hd.1 < hd.2 then none else
  if payload.length < hd.1 then none else
  let serial_types ← decode_serial_types ((payload.take hd.1).drop hd.2)
  let values ← decode_values payload hd.1 serial_types
  some ⟨match rowid with
        | some r => RecordStart.RowId r
        | none => match left_page with
          | some lp => RecordStart.LeftPage lp
          | none => RecordStart.None,
        payload_size, values⟩

/-! ## Table B-tree walker (src/src/page_io.rs lines 264-361)

The walkers recurse on page numbers read from the file, which need not
terminate on arbitrary bytes (the Rust source would chase a cycle until
the stack overflows), so each takes an explicit fuel bound via Nat.rec;
fuel equal to the tree height plus one is enough for any acyclic
B-tree.  Fuel exhaustion is none. -/

/-- full_table_scan (src/src/page_io.rs lines 264-282): on an interior
page read each cell's 4-byte left child and recurse, then recurse into
the rightmost pointer; on a leaf decode every cell as a table-leaf
record. -/
def full_table_scan (file : List Nat) (dbheader : DbHeader) : Nat → Nat → Option (List Record) :=
  Nat.rec (fun _ => none)
    (fun _ scan page_number => do
      let page ← Page.from_file file page_number dbheader
      if page.header.is_interior then do
        let childLists ← page.pointer_array.mapM
          (fun ptr => do
            let left_page ← read_u32_at page.data ptr
            scan left_page)
        let right_page ← page.header.rightmost_pointer
        let rightRecords ← scan right_page
        some (childLists.flatten ++ rightRecords)
      else
        (List.range page.header.num_cells).mapM
          (fun i => read_record file dbheader page i 1))

/-- The interior cell loop of row_lookup (src/src/page_io.rs lines
341-349): walk the cell pointers in order; at the first cell whose
rowid key is ≥ the target, descend into its left child and break; cells
with smaller keys are skipped; if no cell qualifies the loop contributes
nothing. -/
def row_lookup_cells (lookup : Nat → Option (List Record)) (data : List Nat) (rowid : Nat) :
    List Nat → Option (List Record)
  | [] => some []
  | ptr :: rest => do
    let left_page ← read_u32_at data ptr
    let cmpr := decode_varint (data.drop (ptr + 4))
    if rowid ≤ cmpr.1 then lookup left_page
    else row_lookup_cells lookup data rowid rest

/-- The leaf cell loop of row_lookup (src/src/page_io.rs lines
353-358): decode each cell as a table-leaf record and keep those whose
rowid equals the target (the unwrap on a record without a rowid is
none). -/
def row_lookup_leaf (file : List Nat) (dbheader : DbHeader) (page : Page) (rowid : Nat) :
    List Nat → Option (List Record)
  | [] => some []
  | i :: rest => do
    let record ← read_record file dbheader page i 1
    let rid ← record.rowid
    let more ← row_lookup_leaf file dbheader page rowid rest
    if rid == rowid then some (record :: more) else some more

/-- row_lookup (src/src/page_io.rs lines 337-361).  On an interior page
the source descends into the first child whose key qualifies AND THEN
UNCONDITIONALLY appends the lookup of the rightmost pointer (line 350
runs whether or not the loop broke); on a leaf it filters by rowid. -/
def row_lookup (file : List Nat) (dbheader : DbHeader) : Nat → Nat → Nat → Option (List Record) :=
  Nat.rec (fun _ _ => none)
    (fun _ lookup page_number rowid => do
      let page ← Page.from_file file page_number dbheader
      if page.header.is_interior then do
        let first ← row_lookup_cells (fun p => lookup p rowid) page.data rowid page.pointer_array
        let right_page ← page.header.rightmost_pointer
        let rightRecords ← lookup right_page rowid
        some (first ++ rightRecords)
      else
        row_lookup_leaf file dbheader page rowid (List.range page.header.num_cells))

/-- The visited-page trace of the interior cell loop of row_lookup:
same control flow as row_lookup_cells, returning the pages loaded by
the descent instead of its records. -/
def row_lookup_cells_visits (visits : Nat → Option (List Nat)) (data : List Nat) (rowid : Nat) :
    List Nat → Option (List Nat)
  | [] => some []
  | ptr :: rest => do
    let left_page ← read_u32_at data ptr
    let cmpr := decode_varint (data.drop (ptr + 4))
    if rowid ≤ cmpr.1 then visits left_page
    else row_lookup_cells_visits visits data rowid rest

/-- The visited-page trace of row_lookup (src/src/page_io.rs lines
337-361): records, in call order, every page number row_lookup passes
to Page::from_file.  This is row_lookup's own recursion structure with
records replaced by page numbers: the entered page, then the pages of
the one descent the cell loop performs, then - unconditionally, as in
the source - the pages of the rightmost-pointer descent. -/
def row_lookup_visits (file : List Nat) (dbheader : DbHeader) : Nat → Nat → Nat → Option (List Nat) :=
  Nat.rec (fun _ _ => none)
    (fun _ visits page_number rowid => do
      let page ← Page.from_file file page_number dbheader
      if page.header.is_interior then do
        let first ← row_lookup_cells_visits (fun p => visits p rowid) page.data rowid page.pointer_array
        let right_page ← page.header.rightmost_pointer
        let rightVisits ← visits right_page rowid
        some (page_number :: (first ++ rightVisits))
      else
        some [page_number])

/-! ## Index B-tree walker (src/src/page_io.rs lines 284-335) -/

/-- Rust String lexicographic strict order, on UTF-8 byte lists. -/
def bytes_lt : List Nat → List Nat → Bool
  | [], [] => false
  | [], _ :: _ => true
  | _ :: _, [] => false
  | a :: xs, b :: ys =>
    if a < b then true
    else if b < a then false
    else bytes_lt xs ys

/-- Rust `as u64` on a signed integer value: reinterpret mod 2 ^ 64. -/
def int_as_u64 (v : Int) : Nat := (v % (2 ^ 64 : Int)).toNat

/-- The interior cell loop of index_scan (src/src/page_io.rs lines
288-313), over the remaining cell indices.  For each cell decoded with
the index-interior shape: a Null key skips the cell; a key equal to the
probe descends into the left child and keeps iterating; a key greater
than the probe descends into the left child and breaks conclusively (no
rightmost descent); a smaller key is skipped.  When the loop ends
without a conclusive break the rightmost pointer is scanned.  A
non-text, non-null key is a panic (none). -/
def index_scan_interior (file : List Nat) (dbheader : DbHeader)
    (scan : Nat → Option (List Nat)) (page : Page) (key : List Nat) :
    List Nat → Option (List Nat)
  | [] => do
    let right_page ← page.header.rightmost_pointer
    scan right_page
  | i :: rest => do
    let record ← read_record file dbheader page i 2
    match record.values.get? 0 with
    | some (SqlValue.Text v) =>
      if v == key then do
        let lp ← record.left_page
        let sub ← scan lp
        let more ← index_scan_interior file dbheader scan page key rest
        some (sub ++ more)
      else if bytes_lt key v then do
        let lp ← record.left_page
        scan lp
      else index_scan_interior file dbheader scan page key rest
    | some SqlValue.Null => index_scan_interior file dbheader scan page key rest
    | _ => none

/-- The leaf cell loop of index_scan (src/src/page_io.rs lines
315-332): each cell is decoded with the index-leaf shape; a non-text
first column is a panic here (including Null); when the key matches,
the second column must be an integer, pushed `as u64`. -/
def index_scan_leaf (file : List Nat) (dbheader : DbHeader) (page : Page) (key : List Nat) :
    List Nat → Option (List Nat)
  | [] => some []
  | i :: rest => do
    let record ← read_record file dbheader page i 0
    match record.values.get? 0 with
    | some (SqlValue.Text v) =>
      if v == key then
        match record.values.get? 1 with
        | some (SqlValue.I8 x) => (index_scan_leaf file dbheader page key rest).map (int_as_u64 x :: ·)
        | some (SqlValue.I16 x) => (index_scan_leaf file dbheader page key rest).map (int_as_u64 x :: ·)
        | some (SqlValue.I24 x) => (index_scan_leaf file dbheader page key rest).map (int_as_u64 x :: ·)
        | some (SqlValue.I32 x) => (index_scan_leaf file dbheader page key rest).map (int_as_u64 x :: ·)
        | some (SqlValue.I48 x) => (index_scan_leaf file dbheader page key rest).map (int_as_u64 x :: ·)
        | some (SqlValue.I64 x) => (index_scan_leaf file dbheader page key rest).map (int_as_u64 x :: ·)
        | _ => none
      else index_scan_leaf file dbheader page key rest
    | _ => none

/-- index_scan (src/src/page_io.rs lines 284-335): equality key probe
over an index B-tree, returning matching row-ids, fuelled like the
other walkers. -/
def index_scan (file : List Nat) (dbheader : DbHeader) : Nat → Nat → List Nat → Option (List Nat) :=
  Nat.rec (fun _ _ => none)
    (fun _ scan page_number key => do
      let page ← Page.from_file file page_number dbheader
      if page.header.is_interior then
        index_scan_interior file dbheader (fun p => scan p key) page key
          (List.range page.pointer_array.length)
      else
        index_scan_leaf file dbheader page key (List.range page.header.num_cells))

/-! ## Query executor (src/main.rs lines 59-160)

src/main.rs duplicates DbHeader, Page, read_record and full_table_scan
(lines 168-488) with the same logic as src/src/page_io.rs; the embedded
page_io definitions above stand for both copies.  The executor below is
the body of the two SELECT arms of main(), after the file, schema and
AST plumbing has resolved the table's root page, its column names, the
projection list and the WHERE clauses; those are its parameters.
Strings are UTF-8 byte lists. -/

/-- The byte list of the literal "id" (the pseudo-column name, compared
case-sensitively at src/main.rs line 146). -/
def id_bytes : List Nat := [105, 100]

/-- Decimal ASCII digits of n - Rust's u64::to_string.  Fuelled by n+1
(each recursion divides by 10) to stay kernel-computable. -/
def nat_digits_go : Nat → Nat → List Nat :=
  Nat.rec (fun _ => [])
    (fun _ go n => if n < 10 then [48 + n] else go (n / 10) ++ [48 + n % 10])

/-- Decimal ASCII byte list of n. -/
def nat_digits (n : Nat) : List Nat := nat_digits_go (n + 1) n

/-- Iterator::position over column names (src/main.rs lines 95-98 and
111-114): index of the first column whose name equals the given one. -/
def find_col_index : List (List Nat) → List Nat → Option Nat
  | [], _ => none
  | c :: rest, name => if c == name then some 0 else (find_col_index rest name).map (· + 1)

/-- The WHERE filter loop of main() (src/main.rs lines 128-144), over
the zipped list of (resolved column index, WHERE clause) pairs.  For
pair i the compared literal is the value of the FIRST clause in
where_clause whose column name equals clause i's column name (the
source's find on line 130-134).  A Text mismatch or a Null rejects the
record; any other stored value is a panic (none). -/
def record_passes_filter (record : Record) (where_clause : List (List Nat × List Nat)) :
    List (Nat × (List Nat × List Nat)) → Option Bool
  | [] => some true
  | (where_idx, clause) :: rest => do
    let where_col_val ← record.values.get? where_idx
    let found ← where_clause.find? (fun c => c.1 == clause.1)
    match where_col_val with
    | SqlValue.Text v =>
      if v != found.2 then some false
      else record_passes_filter record where_clause rest
    | SqlValue.Null => some false
    | _ => none

/-- Join projected values with the pipe character (src/main.rs line 158). -/
def join_pipe (parts : List (List Nat)) : List Nat := List.intercalate [124] parts

/-- The projection loop over the resolved column indices (src/main.rs
lines 149-157): a Text value is emitted, a Null is silently skipped,
anything else is a panic (none). -/
def project_cols (record : Record) : List Nat → Option (List (List Nat))
  | [] => some []
  | ix :: rest => do
    let v ← record.values.get? ix
    match v with
    | SqlValue.Text s => (project_cols record rest).map (s :: ·)
    | SqlValue.Null => project_cols record rest
    | _ => none

/-- One output row of main()'s projection (src/main.rs lines 145-158):
when the projection list contains "id" the record's row-id is pushed
FIRST, before any other value and regardless of where "id" appears in
the list; then the resolved columns are emitted in query order (the
stored column resolved for "id" itself is a Null in a rowid table and
is skipped by the Null arm); the values are joined with pipes. -/
def project_record (record : Record) (cols : List (List Nat)) (indices_sel : List Nat) :
    Option (List Nat) := do
  let front ←
    if cols.contains id_bytes then do
      let rid ← record.rowid
      some [nat_digits rid]
    else some []
  let rest ← project_cols record indices_sel
  some (join_pipe (front ++ rest))

/-- The SELECT arm of main() (src/main.rs lines 77-161) from the point
where the table and its schema are resolved: resolve every projected
and WHERE column to an index in the table's column list (a missing
column is a panic), run full_table_scan on the table's root page -
the source's ONLY row materialization, src/main.rs line 126 - then
filter and project each record in traversal order. -/
def exec_select (file : List Nat) (dbheader : DbHeader) (fuel rootpage : Nat)
    (table_columns cols : List (List Nat)) (where_clause : List (List Nat × List Nat)) :
    Option (List (List Nat)) := do
  let indices_sel ← cols.mapM (fun c => find_col_index table_columns c)
  let indices_where ← where_clause.mapM (fun cl => find_col_index table_columns cl.1)
  let records ← full_table_scan file dbheader fuel rootpage
  records.foldlM
    (fun acc record => do
      let pass ← record_passes_filter record where_clause (indices_where.zip where_clause)
      if pass then do
        let line ← project_record record cols indices_sel
        some (acc ++ [line])
      else some acc)
    []

/-- The SELECT COUNT(*) arm of main() (src/main.rs lines 59-76) after
the table name has been resolved to its root page: load the root page
and print its num_cells - the source counts only the root page's
cells, whatever the page type. -/
def select_count (file : List Nat) (dbheader : DbHeader) (rootpage : Nat) : Option Nat := do
  let page ← Page.from_file file rootpage dbheader
  some page.header.num_cells

/-! ## The planner as the specification words it (for comparison)

The following definitions are NOT translations of the source; they
follow the specification's description of row-set materialization
(spec section 4.8 step 3): with at least one usable index, run
index_scan per usable-index WHERE clause, intersect the row-id sets
with set semantics, and run row_lookup per surviving row-id; full scan
only otherwise.  Steps 4-5 (post-filter and projection) reuse the
executor's own filter and projection so that the two pipelines differ
only in materialization. -/

/-- First occurrences of a row-id list, as a set representative. -/
def dedup_ids : List Nat → List Nat
  | [] => []
  | x :: xs => x :: (dedup_ids xs).filter (fun y => y ≠ x)

/-- Set intersection of row-id lists. -/
def ids_intersect (a b : List Nat) : List Nat := a.filter (fun x => b.contains x)

/-- Intersection of all candidate row-id sets. -/
def intersect_all : List (List Nat) → List Nat
  | [] => []
  | s :: rest => rest.foldl ids_intersect (dedup_ids s)

/-- The spec-worded executor: parameters as exec_select plus the list
of (indexed column name, index root page) pairs for the table's
indexes; a WHERE clause is usable when some index is on its column. -/
def exec_select_claim (file : List Nat) (dbheader : DbHeader) (fuel rootpage : Nat)
    (table_columns cols : List (List Nat)) (where_clause : List (List Nat × List Nat))
    (indexes : List (List Nat × Nat)) : Option (List (List Nat)) := do
  let indices_sel ← cols.mapM (fun c => find_col_index table_columns c)
  let indices_where ← where_clause.mapM (fun cl => find_col_index table_columns cl.1)
  let usable := where_clause.filter (fun cl => indexes.any (fun ix => ix.1 == cl.1))
  let records ←
    if usable.isEmpty then
      full_table_scan file dbheader fuel rootpage
    else do
      let candidate_sets ← usable.mapM
        (fun cl => do
          let ixroot ← (indexes.find? (fun ix => ix.1 == cl.1)).map (·.2)
          index_scan file dbheader fuel ixroot cl.2)
      let recordLists ← (intersect_all candidate_sets).mapM
        (fun rid => row_lookup file dbheader fuel rootpage rid)
      some recordLists.flatten
  records.foldlM
    (fun acc record => do
      let pass ← record_passes_filter record where_clause (indices_where.zip where_clause)
      if pass then do
        let line ← project_record record cols indices_sel
        some (acc ++ [line])
      else some acc)
    []

/-- Per-column projection keeping the decision per index: some bytes
for a Text value, a none entry for a skipped Null, failure otherwise. -/
def project_opts (record : Record) : List Nat → Option (List (Option (List Nat)))
  | [] => some []
  | ix :: rest => do
    let v ← record.values.get? ix
    match v with
    | SqlValue.Text s => (project_opts record rest).map (some s :: ·)
    | SqlValue.Null => (project_opts record rest).map ((none : Option (List Nat)) :: ·)
    | _ => none

/-- The amended projection of claim C6 proper: row-id first (when "id"
is projected), then the query-ordered Text-or-skipped-Null values. -/
def project_amended (record : Record) (cols : List (List Nat)) (indices_sel : List Nat) :
    Option (List Nat) := do
  let front ←
    if cols.contains id_bytes then (record.rowid).map (fun rid => [nat_digits rid])
    else some []
  let opts ← project_opts record indices_sel
  some (join_pipe (front ++ opts.reduceOption))

/-! ## Concrete database files for the claims

All use page size 32.  Pages are written out as literal byte lists
padded with zeros to 32 bytes; page 1 is never loaded by the claims
below (the executor is parameterized by the resolved root page), so it
is left blank. -/

/-- The page size 32 header used by all concrete files. -/
def dbh32 : DbHeader := ⟨32⟩

/-- Pad a page image with zeros to 32 bytes. -/
def pad_page (l : List Nat) : List Nat := l ++ List.replicate (32 - l.length) 0

/-- A 32-byte table-leaf page with a single zero-column record with the
given rowid: header type 0x0D, one cell at offset 20, cell bytes
[payload_size 1, rowid, record header 1 (no serial types)]. -/
def leaf_page_1cell (rid : Nat) : List Nat :=
  pad_page ([13, 0, 0, 0, 1, 0, 0, 0] ++ [0, 20] ++ List.replicate 10 0 ++ [1, rid, 1])

/-- A 32-byte table-leaf page with two zero-column records with the two
given rowids, cells at offsets 20 and 24. -/
def leaf_page_2cells (r1 r2 : Nat) : List Nat :=
  pad_page ([13, 0, 0, 0, 2, 0, 0, 0] ++ [0, 20, 0, 24] ++ List.replicate 8 0 ++
    [1, r1, 1] ++ [0] ++ [1, r2, 1])

/-- The C2 file: page 2 is a table-interior root (type 0x05) with one
cell (left child page 3, rowid key 5) and rightmost pointer page 4;
page 3 is a leaf holding rowid 3; page 4 is a leaf holding rowid 10.
This is a well-formed two-level table B-tree. -/
def fileC2 : List Nat :=
  pad_page [] ++
  pad_page ([5, 0, 0, 0, 1, 0, 0, 0] ++ [0, 0, 0, 4] ++ [0, 20] ++
    List.replicate 6 0 ++ [0, 0, 0, 3, 5]) ++
  leaf_page_1cell 3 ++
  leaf_page_1cell 10

/-- The record with rowid 3 and no columns that fileC2's page 3 holds. -/
def recC2 : Record := ⟨RecordStart.RowId 3, 1, []⟩

/-- The C3 file: page 2 is a table leaf whose single cell at offset 20
declares payload_size 20 with rowid 1 - the payload spills past the
32-byte page (only 10 bytes follow the cell header), the case in which
the spec says the overflow chain must be followed. -/
def fileC3 : List Nat :=
  pad_page [] ++
  pad_page ([13, 0, 0, 0, 1, 0, 0, 0] ++ [0, 20] ++ List.replicate 10 0 ++ [20, 1])

/-- The C5 file: page 2 is a table-interior root with one cell (left
child page 3, key 2) and rightmost pointer page 4; pages 3 and 4 are
leaves with two records each (rowids 1,2 and 3,4) - four table rows in
total, while the root page itself has num_cells 1. -/
def fileC5 : List Nat :=
  pad_page [] ++
  pad_page ([5, 0, 0, 0, 1, 0, 0, 0] ++ [0, 0, 0, 4] ++ [0, 20] ++
    List.replicate 6 0 ++ [0, 0, 0, 3, 2]) ++
  leaf_page_2cells 1 2 ++
  leaf_page_2cells 3 4

/-- UTF-8 bytes of "color". -/
def color_bytes : List Nat := [99, 111, 108, 111, 114]

/-- UTF-8 bytes of "Red". -/
def red_bytes : List Nat := [82, 101, 100]

/-- UTF-8 bytes of "name". -/
def name_bytes : List Nat := [110, 97, 109, 101]

/-- UTF-8 bytes of "Fuji". -/
def fuji_bytes : List Nat := [70, 117, 106, 105]

/-- The C4 file: page 2 is a table leaf with one row (rowid 1, single
Text column "Red", serial type 19); page 3 is an EMPTY index leaf (type
0x0A, zero cells) for an index on that column - the row is missing
from the index, so an index probe finds nothing while a full scan finds
the row. -/
def fileC4 : List Nat :=
  pad_page [] ++
  pad_page ([13, 0, 0, 0, 1, 0, 0, 0] ++ [0, 16] ++ List.replicate 6 0 ++
    [5, 1, 2, 19, 82, 101, 100]) ++
  pad_page [10, 0, 0, 0, 0, 0, 0, 0]

/-- The C6 file: page 2 is a table leaf with one row of rowid 2 and
columns [Null, Text "Fuji", Text "Red"] (serial types 0, 21, 19),
modelling a rowid table apples(id, name, color) whose id column is
stored as Null. -/
def fileC6 : List Nat :=
  pad_page [] ++
  pad_page ([13, 0, 0, 0, 1, 0, 0, 0] ++ [0, 16] ++ List.replicate 6 0 ++
    [11, 2, 4, 0, 21, 19, 70, 117, 106, 105, 82, 101, 100])

/-! ## The varint value as the claim words it

C7 describes decode_varint's result as: shift the accumulator left 7
and OR in the low 7 bits of each byte, except that the 9th byte is
incorporated by shifting left 8 and ORing all 8 of its bits.
varint_value_go slots acc bytes applies exactly that to a byte list,
with `slots` plain-7-bit positions left before the 8-bit position. -/

/-- The claim's value formula: consume every byte of the list, 7 bits
at a time, with the byte after `slots` positions contributing 8 bits. -/
def varint_value_go : Nat → Nat → List Nat → Nat
  | _, acc, [] => acc
  | 0, acc, b :: _ => acc * 256 + b % 256
  | slots + 1, acc, b :: rest => varint_value_go slots (varint_step acc b) rest

/-- The claim's value of a consumed byte sequence: 7 bits per byte,
except the 9th byte contributes 8 bits. -/
def varint_value (bytes : List Nat) : Nat := varint_value_go 8 0 bytes

/-- Reference loop for the varint proofs: vgo slots acc bytes consumes
bytes exactly as decode_varint's loop does - stop after a byte with
clear high bit or after the byte in the 8-bit position - but on plain
Nat, with no reduction mod 2 ^ 64; returns (value, bytes consumed). -/
def vgo : Nat → Nat → List Nat → Nat × Nat
  | _, acc, [] => (acc, 0)
  | 0, acc, b :: _ => (acc * 256 + b % 256, 1)
  | slots + 1, acc, b :: rest =>
    if b < 128 then (varint_step acc b, 1)
    else
      let r := vgo slots (varint_step acc b) rest
      (r.1, r.2 + 1)

/-! ## Theorems -/

/-- One varint accumulator step stays below the next 7-bit budget. -/
theorem varint_step_lt (acc b i : Nat) (hacc : acc < 2 ^ (7 * i)) :
    varint_step acc b < 2 ^ (7 * (i + 1))
    := by
  have hmod : b % 128 < 128 := Nat.mod_lt b (by norm_num)
  have h1 : varint_step acc b < (acc + 1) * 128 := by
    unfold varint_step; omega
  have h2 : (acc + 1) * 128 ≤ 2 ^ (7 * i) * 128 :=
    Nat.mul_le_mul_right 128 hacc
  have h3 : 2 ^ (7 * i) * 128 = 2 ^ (7 * (i + 1)) := by
    rw [show 7 * (i + 1) = 7 * i + 7 by ring, pow_add]
    norm_num
  omega

/-- The 7-bit budget stays below 2 ^ 64 while i ≤ 8. -/
theorem pow7_le_word (i : Nat) (hi : i ≤ 8) : 2 ^ (7 * i) ≤ 2 ^ 64 :=
  Nat.pow_le_pow_right (by norm_num) (by omega)

/-- decode_varint's loop equals the plain-Nat reference loop vgo: for
byte inputs the accumulator never reaches 2 ^ 64, so the loop's mod
reductions are the identity, and bytes_read adds up. -/
theorem decode_varint_loop_eq_vgo (data : List Nat) :
    ∀ (i acc br : Nat), (∀ b ∈ data, b < 256) → i ≤ 8 → acc < 2 ^ (7 * i) →
    decode_varint_loop data acc i br = ((vgo (8 - i) acc data).1, br + (vgo (8 - i) acc data).2)
    := by
  induction data with
  | nil => intro i acc br _ _ _; simp [decode_varint_loop, vgo]
  | cons b rest ih =>
    intro i acc br hb hi hacc
    have hb0 : b < 256 := hb b (List.mem_cons_self b rest)
    have h64 : (2 : Nat) ^ 64 = 18446744073709551616 := by norm_num
    by_cases h8 : i = 8
    · subst h8
      have hacc' : acc < 72057594037927936 := by
        have h56 : (2 : Nat) ^ (7 * 8) = 72057594037927936 := by norm_num
        rw [h56] at hacc
        exact hacc
      have hmod : (acc * 256 + b % 256) % 2 ^ 64 = acc * 256 + b % 256 := by
        apply Nat.mod_eq_of_lt
        rw [h64]
        omega
      simp [decode_varint_loop, vgo, hmod]
      omega
    · have hstep : varint_step acc b < 2 ^ (7 * (i + 1)) := varint_step_lt acc b i hacc
      have hv64 : varint_step acc b < 18446744073709551616 := by
        have hle : (2 : Nat) ^ (7 * (i + 1)) ≤ 2 ^ 64 := pow7_le_word (i + 1) (by omega)
        rw [h64] at hle
        omega
      have hmod : (varint_step acc b) % 2 ^ 64 = varint_step acc b := by
        apply Nat.mod_eq_of_lt
        rw [h64]
        exact hv64
      have hs : 8 - i = (8 - (i + 1)) + 1 := by omega
      rw [hs]
      by_cases hlt : b < 128
      · simp [decode_varint_loop, vgo, h8, hlt, hmod]
        omega
      · have hmodl : varint_step acc b % 18446744073709551616 = varint_step acc b := by
          omega
        have h7 : 8 - (i + 1) = 7 - i := by omega
        have hIH := ih (i + 1) (varint_step acc b) (br + 1)
          (fun x hx => hb x (List.mem_cons_of_mem b hx)) (by omega) hstep
        rw [h7] at hIH
        simp [decode_varint_loop, vgo, h8, hlt, hmodl]
        rw [hIH]
        congr 1
        omega

/-- vgo consumes at most slots + 1 bytes. -/
theorem vgo_le_succ (l : List Nat) : ∀ (slots acc : Nat), (vgo slots acc l).2 ≤ slots + 1
    := by
  induction l with
  | nil => intro slots acc; simp [vgo]
  | cons b rest ih =>
    intro slots acc
    cases slots with
    | zero => simp [vgo]
    | succ s =>
      by_cases hlt : b < 128
      · simp [vgo, hlt]
      · simp [vgo, hlt]
        have := ih s (varint_step acc b)
        omega

/-- vgo consumes at most the whole list. -/
theorem vgo_le_len (l : List Nat) : ∀ (slots acc : Nat), (vgo slots acc l).2 ≤ l.length
    := by
  induction l with
  | nil => intro slots acc; simp [vgo]
  | cons b rest ih =>
    intro slots acc
    cases slots with
    | zero => simp [vgo]
    | succ s =>
      by_cases hlt : b < 128
      · simp [vgo, hlt]
      · simp [vgo, hlt]
        have := ih s (varint_step acc b)
        omega

/-- vgo consumes at least one byte of a non-empty list. -/
theorem vgo_pos (b : Nat) (rest : List Nat) (slots acc : Nat) :
    1 ≤ (vgo slots acc (b :: rest)).2
    := by
  cases slots with
  | zero => simp [vgo]
  | succ s =>
    by_cases hlt : b < 128
    · simp [vgo, hlt]
    · simp [vgo, hlt]

/-- The value vgo computes is the claim's formula applied to exactly
the bytes it consumed. -/
theorem vgo_val (l : List Nat) : ∀ (slots acc : Nat),
    (vgo slots acc l).1 = varint_value_go slots acc (l.take (vgo slots acc l).2)
    := by
  induction l with
  | nil => intro slots acc; simp [vgo, varint_value_go]
  | cons b rest ih =>
    intro slots acc
    cases slots with
    | zero => simp [vgo, varint_value_go]
    | succ s =>
      by_cases hlt : b < 128
      · simp [vgo, hlt, varint_value_go]
      · simp [vgo, hlt, varint_value_go]
        exact ih s (varint_step acc b)

/-- On an all-continuation list shorter than the slot budget, vgo
consumes everything and folds the 7-bit step over the whole list. -/
theorem vgo_all_cont (l : List Nat) : ∀ (slots acc : Nat),
    (∀ b ∈ l, 128 ≤ b) → l.length ≤ slots →
    vgo slots acc l = (l.foldl varint_step acc, l.length)
    := by
  induction l with
  | nil => intro slots acc _ _; simp [vgo]
  | cons b rest ih =>
    intro slots acc hb hlen
    cases slots with
    | zero => simp at hlen
    | succ s =>
      have hge : ¬ b < 128 := by
        have := hb b (List.mem_cons_self b rest)
        omega
      have hlen' : rest.length ≤ s := by
        simp at hlen
        omega
      have := ih s (varint_step acc b) (fun x hx => hb x (List.mem_cons_of_mem b hx)) hlen'
      simp [vgo, hge, this]

/-- Drop from a zero-replicate-prefixed list: the prefix shrinks. -/
theorem drop_replicate_append (k : Nat) :
    ∀ (m : Nat) (s : List Nat), k ≤ m →
    (List.replicate m (0 : Nat) ++ s).drop k = List.replicate (m - k) 0 ++ s
    := by
  induction k with
  | zero => intro m s _; simp
  | succ k ih =>
    intro m s h
    cases m with
    | zero => omega
    | succ m =>
      rw [List.replicate_succ, List.cons_append, List.drop_succ_cons, Nat.succ_sub_succ]
      exact ih m s (by omega)

/-- Take from a zero-replicate-prefixed list: only zeros come out. -/
theorem take_replicate_append (n : Nat) :
    ∀ (m : Nat) (s : List Nat), n ≤ m →
    (List.replicate m (0 : Nat) ++ s).take n = List.replicate n 0
    := by
  induction n with
  | zero => intro m s _; simp
  | succ n ih =>
    intro m s h
    cases m with
    | zero => omega
    | succ m =>
      rw [List.replicate_succ, List.cons_append, List.take_succ_cons, List.replicate_succ]
      rw [ih m s (by omega)]

/-- Claim C1: the spec's serial-type table says 5 is a 6-byte int, 6 an
8-byte int, 7 a float64, 8 the zero literal of width 0 and 9 the one
literal of width 0.  The source instead panics on 5, maps 6 to the
6-byte int, 7 to the 8-byte int, 8 to float64, 9 to the zero literal
and 10 to the one literal, and gives the literals width 4: the whole
table from code 5 up is shifted by one against the spec. -/
theorem C1_serial_types_diverge :
    decode_serial_types [5] = none ∧
      decode_serial_types [6] = some [TypeCode.I48] ∧ TypeCode.I48.size = 6 ∧
      decode_serial_types [7] = some [TypeCode.I64] ∧ TypeCode.I64.size = 8 ∧
      decode_serial_types [8] = some [TypeCode.F64] ∧
      decode_serial_types [9] = some [TypeCode.Zero] ∧ TypeCode.Zero.size = 4 ∧
      decode_serial_types [10] = some [TypeCode.One] ∧ TypeCode.One.size = 4
    := by decide

/-- Claim C2: in fileC2's well-formed two-level table B-tree the root
(page 2) has a cell with key 5 ≥ the target rowid 3, so the claim's
single-path descent visits pages 2 and 3 only; but row_lookup's visit
trace is [2, 3, 4]: it descends into the rightmost pointer's subtree
(page 4) as well, descending into two subtrees.  The lookup result on
this consistent tree is still the single record with rowid 3. -/
theorem C2_row_lookup_descends_rightmost :
    row_lookup_visits fileC2 dbh32 10 2 3 = some [2, 3, 4] ∧
      row_lookup fileC2 dbh32 10 2 3 = some [recC2]
    := by decide

/-- Claim C3: fileC3's page 2 holds a cell whose payload_size 20
exceeds its on-page capacity (10 bytes), the case in which the claim
says the payload must be completed from the overflow chain; the page
itself loads fine, but read_record fails (the source's
page_size - payload_start - payload_size underflows/panics) instead of
following the chain. -/
theorem C3_read_record_spill_fails :
    (Page.from_file fileC3 2 dbh32).isSome = true ∧
      (do
        let page ← Page.from_file fileC3 2 dbh32
        read_record fileC3 dbh32 page 0 1) = none
    := by decide

/-- Counterexample for claim C4: fileC4 has a table (root page 2) with
one row (rowid 1, color "Red") and a usable index on color (root page
3) that is missing the row.  The claim's index-driven materialization
(exec_select_claim) returns no rows for WHERE color = 'Red', while the
implementation returns the row - because it always full-scans and
never consults the index. -/
theorem C4_counterexample_planner :
    exec_select fileC4 dbh32 10 2 [color_bytes] [color_bytes] [(color_bytes, red_bytes)] =
        some [[82, 101, 100]] ∧
      exec_select_claim fileC4 dbh32 10 2 [color_bytes] [color_bytes] [(color_bytes, red_bytes)]
          [(color_bytes, 3)] = some [] ∧
      (some [[82, 101, 100]] : Option (List (List Nat))) ≠ some []
    := by decide

/-- Claim C4 (amended): the executor's row materialization is always
full_table_scan followed by the post-filter and projection; it behaves,
for every input, exactly as the spec's planner does in the
no-usable-index case, whatever indexes the database actually has. -/
theorem C4_amended_full_scan (file : List Nat) (dbheader : DbHeader) (fuel rootpage : Nat)
    (table_columns cols : List (List Nat)) (where_clause : List (List Nat × List Nat)) :
    exec_select file dbheader fuel rootpage table_columns cols where_clause =
      exec_select_claim file dbheader fuel rootpage table_columns cols where_clause []
    := by
  unfold exec_select exec_select_claim
  simp only [List.any_nil, List.filter_false, List.isEmpty_nil, if_true]

/-- Claim C5: fileC5's table B-tree has an interior root (page 2, one
cell) over two leaves with two records each.  The claim says SELECT
COUNT(*) prints the total leaf-cell count (4, the full-scan length);
the source prints the root page's num_cells, which is 1. -/
theorem C5_count_star_root_only :
    select_count fileC5 dbh32 2 = some 1 ∧
      (full_table_scan fileC5 dbh32 10 2).map List.length = some 4
    := by decide

/-- Counterexample for claim C6: on fileC6's row (rowid 2, columns
[Null, Text "Fuji", Text "Red"]) the projection SELECT name, id emits
"2|Fuji" - the row-id comes first even though id is the second
projected column - instead of the claim's query-ordered "Fuji|2". -/
theorem C6_counterexample_projection :
    exec_select fileC6 dbh32 10 2 [id_bytes, name_bytes, color_bytes] [name_bytes, id_bytes] [] =
        some [[50, 124, 70, 117, 106, 105]] ∧
      some [[50, 124, 70, 117, 106, 105]] ≠ some [[70, 117, 106, 105, 124, 50]]
    := by decide

/-- project_cols is the Text-keeping, Null-dropping reduction of the
per-column option projection used by the amended projection. -/
theorem project_cols_eq_opts (record : Record) (l : List Nat) :
    project_cols record l = (project_opts record l).map List.reduceOption
    := by
  induction l with
  | nil => rfl
  | cons ix rest ih =>
    cases hv : record.values[ix]? with
    | none => simp [project_cols, project_opts, hv]
    | some v =>
      cases v <;>
        cases hm : project_opts record rest <;>
        simp_all [project_cols, project_opts]

/-- Claim C6 (amended): the projection emits the row-id (when "id" is
projected at all) as the FIRST output value, then the resolved columns
in query order with Text kept and Null dropped: project_record equals
the positionally-stated project_amended on every input. -/
theorem C6_amended_projection (record : Record) (cols : List (List Nat)) (indices_sel : List Nat) :
    project_record record cols indices_sel = project_amended record cols indices_sel
    := by
  unfold project_record project_amended
  simp only [project_cols_eq_opts]
  cases hc : cols.contains id_bytes <;>
    cases hr : record.rowid <;>
    cases ho : project_opts record indices_sel <;>
    simp_all

/-- Claim C7: on every byte slice containing a terminated varint (a
byte with clear high bit among the first 8 bytes, or at least 9 bytes),
decode_varint consumes between 1 and 9 bytes and returns the value
built by shifting the accumulator left 7 and ORing the low 7 bits of
each consumed byte, except that a 9th byte is incorporated by shifting
left 8 and ORing all 8 of its bits (varint_value of the consumed
prefix). -/
theorem C7_decode_varint_spec (data : List Nat) (hb : ∀ b ∈ data, b < 256)
    (hterm : (∃ i, i < 8 ∧ i < data.length ∧ data.getD i 0 < 128) ∨ 9 ≤ data.length) :
    1 ≤ (decode_varint data).2 ∧ (decode_varint data).2 ≤ 9 ∧
      (decode_varint data).1 = varint_value (data.take (decode_varint data).2)
    := by
  cases data with
  | nil =>
    rcases hterm with ⟨i, _, hil, _⟩ | h9
    · simp at hil
    · simp at h9
  | cons b rest =>
    have hdv : decode_varint (b :: rest) = ((vgo 8 0 (b :: rest)).1, (vgo 8 0 (b :: rest)).2) := by
      have hkey := decode_varint_loop_eq_vgo (b :: rest) 0 0 0 hb (by omega) (by norm_num)
      simpa [decode_varint] using hkey
    rw [hdv]
    refine ⟨vgo_pos b rest 8 0, ?_, ?_⟩
    · simpa using vgo_le_succ (b :: rest) 8 0
    · exact vgo_val (b :: rest) 8 0

/-- Witness for C7 at the concrete two-byte varint [0x87, 0x68]:
decode_varint consumes 2 bytes and returns 7 * 128 + 104 = 1000. -/
theorem C7_decode_varint_spec_witness :
    1 ≤ (decode_varint [135, 104]).2 ∧ (decode_varint [135, 104]).2 ≤ 9 ∧
      (decode_varint [135, 104]).1 = varint_value ([135, 104].take (decode_varint [135, 104]).2) :=
  C7_decode_varint_spec [135, 104] (by decide) (Or.inl ⟨1, by decide, by decide, by decide⟩)

/-- Counterexample for claim C9: [0x80] is exhausted before the varint
terminates, and the empty slice trivially so; on both, decode_varint
returns successfully - the partial accumulator 0 with 1 byte consumed,
and (0, 0) - instead of surfacing a decode error. -/
theorem C9_counterexample_varint_no_error :
    decode_varint [128] = (0, 1) ∧ decode_varint [] = (0, 0)
    := by decide

/-- Claim C9 (amended): decode_varint never fails; on a slice exhausted
before termination (every byte has its high bit set and fewer than 9
bytes are available) it returns the partial accumulated value - the
7-bit fold over the whole slice - with bytes_consumed equal to the
slice length (0 for the empty slice). -/
theorem C9_amended_varint_partial (data : List Nat)
    (hb : ∀ b ∈ data, 128 ≤ b ∧ b < 256) (hlen : data.length < 9) :
    decode_varint data = (data.foldl varint_step 0, data.length)
    := by
  have hkey := decode_varint_loop_eq_vgo data 0 0 0 (fun b hbm => (hb b hbm).2) (by omega) (by norm_num)
  have hall := vgo_all_cont data 8 0 (fun b hbm => (hb b hbm).1) (by omega)
  unfold decode_varint
  simp only [Nat.sub_zero, Nat.zero_add] at hkey
  rw [hkey, hall]

/-- Witness for the amended C9 at the exhausted slice [0xC8, 0xC9]:
both bytes are continuations, so the partial value (72 * 128 + 73) and
length 2 come back. -/
theorem C9_amended_varint_partial_witness :
    decode_varint [200, 201] = ([200, 201].foldl varint_step 0, [200, 201].length) :=
  C9_amended_varint_partial [200, 201] (by decide) (by decide)

/-- Claim C10: for every file, page number, and requested count n up to
page_size - 4, read_overflow returns n zero bytes regardless of the
file's contents, because OverflowPage::from_file appends the file bytes
after its zero-initialized page_size buffer instead of overwriting it,
and read_overflow slices bytes 4 .. 4 + n out of that zero prefix. -/
theorem C10_read_overflow_zeros (file : List Nat) (dbheader : DbHeader) (page_number n : Nat)
    (hps : 4 ≤ dbheader.page_size) (hn : n ≤ dbheader.page_size - 4) :
    read_overflow file dbheader page_number n = some (List.replicate n 0)
    := by
  unfold read_overflow OverflowPage.from_file
  dsimp only
  split
  · congr 1
    rw [drop_replicate_append 4 dbheader.page_size _ hps,
        take_replicate_append n (dbheader.page_size - 4) _ hn]
  · rename_i hcond
    exfalso
    apply hcond
    simp
    omega

/-- Witness for C10: a 20-byte file of 9s, page size 16, page 1,
n = 5 - the five returned bytes are zeros, not the file's 9s. -/
theorem C10_read_overflow_zeros_witness :
    read_overflow [9, 9, 9, 9, 9, 9, 9, 9, 9, 9, 9, 9, 9, 9, 9, 9, 9, 9, 9, 9] ⟨16⟩ 1 5 =
      some (List.replicate 5 0) :=
  C10_read_overflow_zeros [9, 9, 9, 9, 9, 9, 9, 9, 9, 9, 9, 9, 9, 9, 9, 9, 9, 9, 9, 9] ⟨16⟩ 1 5
    (by norm_num) (by norm_num)

/-- Claim C8: the spec says 3- and 6-byte integer bodies are
sign-extended, so an all-ones body decodes to -1; the source
zero-extends both (and reads only 4 of the 6 bytes for width 6), so the
decoded values are the large positive 2^24 - 1 and 2^32 - 1. -/
theorem C8_int_decode_zero_extended :
    TypeCode.I24.decode [255, 255, 255] = some (SqlValue.I24 16777215) ∧
      ¬ (16777215 : Int) < 0 ∧
      TypeCode.I48.decode [255, 255, 255, 255, 255, 255] = some (SqlValue.I48 4294967295) ∧
      ¬ (4294967295 : Int) < 0
    := by decide
